import Mathlib

/-!
Verification of the rbpf error taxonomy (`src/error.rs`) and of the
spec-level contracts of the execution engine built around it.

The error taxonomy is embedded directly from `src/error.rs`.  The
components that consume it (memory translation, verifier, interpreter,
JIT) are not part of the provided sources, so they are modelled from the
specification where a claim needs them; each such definition carries a
doc comment starting with `Modelled from the spec:`.
-/

/-- Modelled from the spec: an opaque host error value
(`Box<dyn std::error::Error>` in `src/error.rs` line 31).  The core only
ever observes its `Display` rendering, modelled as `message`.  The flag
`userDefined` records whether the value's dynamic type additionally
implements the crate's `UserDefinedError` marker trait
(`src/error.rs` line 23); the `UserError` variant's argument type does
not mention that trait, so the flag is never consulted by the taxonomy. -/
structure StdError where
  message : String
  userDefined : Bool
deriving DecidableEq

/-- Modelled from the spec: the external ELF loader's error type
(`crate::elf::ElfError`, outside the provided sources).  Opaque to the
core except for its `Display` rendering. -/
structure ElfError where
  message : String
deriving DecidableEq

/-- Modelled from the spec: the verifier's error type
(`crate::verifier::VerifierError`, outside the provided sources).
Opaque to the core except for its `Display` rendering. -/
structure VerifierError where
  message : String
deriving DecidableEq

/-- Modelled from the spec: memory access kinds
(`crate::memory_region::AccessType`, outside the provided sources):
a translation request is either a read (`load`) or a write (`store`). -/
inductive AccessType where
  | load
  | store
deriving DecidableEq

/-- The error taxonomy of `src/error.rs` lines 28-102: `enum EbpfError`,
one constructor per Rust variant, payloads in source order
(`usize` as `Nat`, `u64` as `Nat`, `i64`/`i32` as `Int`,
`&'static str` and `Vec<String>` as `String` and `List String`). -/
inductive EbpfError where
  /-- `UserError(Box<dyn std::error::Error>)` -/
  | UserError (inner : StdError)
  /-- `ElfError(#[from] ElfError)` -/
  | ElfError (inner : ElfError)
  /-- `SyscallAlreadyRegistered(usize)` -/
  | SyscallAlreadyRegistered (index : Nat)
  /-- `SyscallNotRegistered(usize)` -/
  | SyscallNotRegistered (index : Nat)
  /-- `SyscallAlreadyBound(usize)` -/
  | SyscallAlreadyBound (index : Nat)
  /-- `TooManySyscalls` -/
  | TooManySyscalls
  /-- `CallDepthExceeded(usize, usize)`: instruction index, max depth -/
  | CallDepthExceeded (insn maxDepth : Nat)
  /-- `ExitRootCallFrame` -/
  | ExitRootCallFrame
  /-- `DivideByZero(usize)`: instruction index -/
  | DivideByZero (insn : Nat)
  /-- `DivideOverflow(usize)`: instruction index -/
  | DivideOverflow (insn : Nat)
  /-- `ExecutionOverrun(usize)`: instruction index -/
  | ExecutionOverrun (insn : Nat)
  /-- `CallOutsideTextSegment(usize, u64)`: instruction index, target address -/
  | CallOutsideTextSegment (insn : Nat) (target : Nat)
  /-- `ExceededMaxInstructions(usize, u64)`: instruction index, instruction count -/
  | ExceededMaxInstructions (insn : Nat) (count : Nat)
  /-- `JitNotCompiled` -/
  | JitNotCompiled
  /-- `InvalidVirtualAddress(u64)`: the faulting virtual address -/
  | InvalidVirtualAddress (vmAddr : Nat)
  /-- `InvalidMemoryRegion(usize)`: the region index -/
  | InvalidMemoryRegion (index : Nat)
  /-- `AccessViolation(usize, AccessType, u64, u64, &'static str)`:
  instruction index, access type, address, length, region name -/
  | AccessViolation (insn : Nat) (ty : AccessType) (vmAddr len : Nat) (regionName : String)
  /-- `StackAccessViolation(usize, AccessType, u64, u64, i64)`:
  instruction index, access type, address, length, signed frame index -/
  | StackAccessViolation (insn : Nat) (ty : AccessType) (vmAddr len : Nat) (frame : Int)
  /-- `InvalidInstruction(usize)`: instruction index -/
  | InvalidInstruction (insn : Nat)
  /-- `UnsupportedInstruction(usize)`: instruction index -/
  | UnsupportedInstruction (insn : Nat)
  /-- `ExhaustedTextSegment(usize)`: instruction index -/
  | ExhaustedTextSegment (insn : Nat)
  /-- `LibcInvocationFailed(&'static str, Vec<String>, i32)`:
  function name, arguments rendered as text, status code -/
  | LibcInvocationFailed (name : String) (args : List String) (code : Int)
  /-- `VerifierError(#[from] VerifierError)` -/
  | VerifierError (inner : VerifierError)
deriving DecidableEq

/-- Lowercase hexadecimal rendering of a `Nat`, as Rust's `{:x}`. -/
def hexStr (n : Nat) : String :=
  (Nat.toDigits 16 n).asString

/-- Rust `Debug` rendering of a `Vec<String>`, as produced by `{:?}`. -/
def debugStrList (args : List String) : String :=
  "[" ++ String.intercalate ", " (args.map (fun s => "\"" ++ s ++ "\"")) ++ "]"

/-- The `Display` rendering of each variant, transcribed from the
`#[error("...")]` format strings of `src/error.rs` (thiserror derives
`Display` from them; `{:#x}` prints `0x` plus hex, `{:x?}` prints bare
hex, `{:?}` on `u64` prints decimal, `{:?}` on `Vec<String>` prints the
bracketed quoted list). -/
def EbpfError.message : EbpfError → String
  | .UserError u => u.message
  | .ElfError e => "ELF error: " ++ e.message
  | .SyscallAlreadyRegistered n =>
      "syscall #" ++ toString n ++ " was already registered before"
  | .SyscallNotRegistered n =>
      "syscall #" ++ toString n ++ " was not registered before bind"
  | .SyscallAlreadyBound n =>
      "syscall #" ++ toString n ++ " already has a bound context object"
  | .TooManySyscalls => "too many syscalls"
  | .CallDepthExceeded i m =>
      "exceeded max BPF to BPF call depth of " ++ toString m ++
        " at instruction #" ++ toString i
  | .ExitRootCallFrame => "attempted to exit root call frame"
  | .DivideByZero i => "divide by zero at instruction " ++ toString i
  | .DivideOverflow i => "division overflow at instruction " ++ toString i
  | .ExecutionOverrun i =>
      "attempted to execute past the end of the text segment at instruction #" ++ toString i
  | .CallOutsideTextSegment i a =>
      "callx at instruction " ++ toString i ++
        " attempted to call outside of the text segment to addr 0x" ++ hexStr a
  | .ExceededMaxInstructions i c =>
      "exceeded maximum number of instructions allowed (" ++ toString c ++
        ") at instruction #" ++ toString i
  | .JitNotCompiled => "program has not been JIT-compiled"
  | .InvalidVirtualAddress a => "invalid virtual address " ++ hexStr a
  | .InvalidMemoryRegion n => "Invalid memory region at index " ++ toString n
  | .AccessViolation i _ a l s =>
      "Access violation in " ++ s ++ " section at address 0x" ++ hexStr a ++
        " of size " ++ toString l ++ " by instruction #" ++ toString i
  | .StackAccessViolation i _ a l fr =>
      "Access violation in stack frame " ++ toString fr ++ " at address 0x" ++ hexStr a ++
        " of size " ++ toString l ++ " by instruction #" ++ toString i
  | .InvalidInstruction i => "invalid instruction at " ++ toString i
  | .UnsupportedInstruction i => "unsupported instruction at instruction " ++ toString i
  | .ExhaustedTextSegment i =>
      "Compilation exhausted text segment at instruction " ++ toString i
  | .LibcInvocationFailed f args c =>
      "Libc calling " ++ f ++ " " ++ debugStrList args ++
        " returned error code " ++ toString c
  | .VerifierError v => "Verifier error: " ++ v.message

/-- The instruction-index payload of a variant, where the variant's
`#[error]` format string in `src/error.rs` documents a field as the
offending instruction index ("at instruction", "by instruction"); `none`
for variants whose payload carries no instruction index. -/
def EbpfError.instructionIndex : EbpfError → Option Nat
  | .CallDepthExceeded i _ => some i
  | .DivideByZero i => some i
  | .DivideOverflow i => some i
  | .ExecutionOverrun i => some i
  | .CallOutsideTextSegment i _ => some i
  | .ExceededMaxInstructions i _ => some i
  | .AccessViolation i _ _ _ _ => some i
  | .StackAccessViolation i _ _ _ _ => some i
  | .InvalidInstruction i => some i
  | .UnsupportedInstruction i => some i
  | .ExhaustedTextSegment i => some i
  | _ => none

/-- The spec's list of runtime faults (section 7): DivideByZero/Overflow,
AccessViolation/StackAccessViolation, CallDepthExceeded, ExitRootCallFrame,
ExecutionOverrun, ExceededMaxInstructions, InvalidInstruction,
InvalidVirtualAddress, InvalidMemoryRegion, CallOutsideTextSegment,
UnsupportedInstruction. -/
def EbpfError.isRuntimeFault : EbpfError → Bool
  | .DivideByZero _ => true
  | .DivideOverflow _ => true
  | .AccessViolation _ _ _ _ _ => true
  | .StackAccessViolation _ _ _ _ _ => true
  | .CallDepthExceeded _ _ => true
  | .ExitRootCallFrame => true
  | .ExecutionOverrun _ => true
  | .ExceededMaxInstructions _ _ => true
  | .InvalidInstruction _ => true
  | .InvalidVirtualAddress _ => true
  | .InvalidMemoryRegion _ => true
  | .CallOutsideTextSegment _ _ => true
  | .UnsupportedInstruction _ => true
  | _ => false

/-- The tag (discriminant) of each variant of `EbpfError`, one kind per
Rust variant in source order (`#[repr(u64)]` in `src/error.rs` line 27
fixes a discriminant per variant). -/
inductive ErrKind where
  | userError
  | elfError
  | syscallAlreadyRegistered
  | syscallNotRegistered
  | syscallAlreadyBound
  | tooManySyscalls
  | callDepthExceeded
  | exitRootCallFrame
  | divideByZero
  | divideOverflow
  | executionOverrun
  | callOutsideTextSegment
  | exceededMaxInstructions
  | jitNotCompiled
  | invalidVirtualAddress
  | invalidMemoryRegion
  | accessViolation
  | stackAccessViolation
  | invalidInstruction
  | unsupportedInstruction
  | exhaustedTextSegment
  | libcInvocationFailed
  | verifierError
deriving DecidableEq

/-- The kind tag of an error value. -/
def EbpfError.kind : EbpfError → ErrKind
  | .UserError _ => .userError
  | .ElfError _ => .elfError
  | .SyscallAlreadyRegistered _ => .syscallAlreadyRegistered
  | .SyscallNotRegistered _ => .syscallNotRegistered
  | .SyscallAlreadyBound _ => .syscallAlreadyBound
  | .TooManySyscalls => .tooManySyscalls
  | .CallDepthExceeded _ _ => .callDepthExceeded
  | .ExitRootCallFrame => .exitRootCallFrame
  | .DivideByZero _ => .divideByZero
  | .DivideOverflow _ => .divideOverflow
  | .ExecutionOverrun _ => .executionOverrun
  | .CallOutsideTextSegment _ _ => .callOutsideTextSegment
  | .ExceededMaxInstructions _ _ => .exceededMaxInstructions
  | .JitNotCompiled => .jitNotCompiled
  | .InvalidVirtualAddress _ => .invalidVirtualAddress
  | .InvalidMemoryRegion _ => .invalidMemoryRegion
  | .AccessViolation _ _ _ _ _ => .accessViolation
  | .StackAccessViolation _ _ _ _ _ => .stackAccessViolation
  | .InvalidInstruction _ => .invalidInstruction
  | .UnsupportedInstruction _ => .unsupportedInstruction
  | .ExhaustedTextSegment _ => .exhaustedTextSegment
  | .LibcInvocationFailed _ _ _ => .libcInvocationFailed
  | .VerifierError _ => .verifierError

/-- All 23 kinds, in the source order of `src/error.rs`. -/
def allErrorKinds : List ErrKind :=
  [.userError, .elfError, .syscallAlreadyRegistered, .syscallNotRegistered,
   .syscallAlreadyBound, .tooManySyscalls, .callDepthExceeded,
   .exitRootCallFrame, .divideByZero, .divideOverflow, .executionOverrun,
   .callOutsideTextSegment, .exceededMaxInstructions, .jitNotCompiled,
   .invalidVirtualAddress, .invalidMemoryRegion, .accessViolation,
   .stackAccessViolation, .invalidInstruction, .unsupportedInstruction,
   .exhaustedTextSegment, .libcInvocationFailed, .verifierError]

/-- The stored host error of a `UserError`, `none` for other variants. -/
def EbpfError.userPayload : EbpfError → Option StdError
  | .UserError u => some u
  | _ => none

/-- The stored payload of a `LibcInvocationFailed`: function name,
arguments rendered as text, status code. -/
def EbpfError.libcPayload : EbpfError → Option (String × List String × Int)
  | .LibcInvocationFailed f args c => some (f, args, c)
  | _ => none

/-- The `From<ElfError>` conversion derived by `#[from]` on the
`ElfError` variant (`src/error.rs` line 34): wraps the error unchanged. -/
def fromElfError (e : ElfError) : EbpfError :=
  .ElfError e

/-- The `From<VerifierError>` conversion derived by `#[from]` on the
`VerifierError` variant (`src/error.rs` line 101): wraps the error
unchanged. -/
def fromVerifierError (v : VerifierError) : EbpfError :=
  .VerifierError v

/-- Modelled from the spec: the identifying slot of a memory region
(section 3: text, stack-frame-N, heap, or input; `memory_region.rs` is
outside the provided sources).  The stack-frame index is signed, matching
the `i64` frame payload of `StackAccessViolation`. -/
inductive RegionSlot where
  | text
  | stackFrame (idx : Int)
  | heap
  | input
deriving DecidableEq

/-- Whether a slot is a stack frame. -/
def RegionSlot.isStack : RegionSlot → Bool
  | .stackFrame _ => true
  | _ => false

/-- The region-identity string stored in the `AccessViolation` payload
(`&'static str`), one name per non-stack slot. -/
def RegionSlot.name : RegionSlot → String
  | .text => "text"
  | .stackFrame _ => "stack"
  | .heap => "heap"
  | .input => "input"

/-- Modelled from the spec: a memory region (section 3): base virtual
address, length, access permissions (read/write), and an identifying
slot.  Regions are disjoint in virtual-address space. -/
structure MemoryRegion where
  base : Nat
  len : Nat
  canRead : Bool
  canWrite : Bool
  slot : RegionSlot
deriving DecidableEq

/-- Whether a region's permissions allow the given access type. -/
def MemoryRegion.permits (r : MemoryRegion) : AccessType → Bool
  | .load => r.canRead
  | .store => r.canWrite

/-- The region containing virtual address `a`, if any. -/
def findRegion (regions : List MemoryRegion) (a : Nat) : Option MemoryRegion :=
  regions.find? (fun r => decide (r.base ≤ a) && decide (a < r.base + r.len))

/-- The fault raised when an access inside region `r` fails: stack
regions raise `StackAccessViolation` with the signed frame index, other
regions raise `AccessViolation` with the region name
(spec section 4.1; payload shapes from `src/error.rs` lines 81 and 86). -/
def regionFault (r : MemoryRegion) (idx : Nat) (ty : AccessType) (a l : Nat) : EbpfError :=
  match r.slot with
  | .stackFrame fr => .StackAccessViolation idx ty a l fr
  | s => .AccessViolation idx ty a l s.name

/-- Modelled from the spec: address translation (section 4.1).  Checks in
order: a containing region exists (else `InvalidVirtualAddress`), the
requested range `[a, a+l)` fits fully inside that region (else an access
violation carrying the region identity, faulting address, length and
instruction index), and the region's permissions allow the access type.
On success returns the offset of the access into the region's backing. -/
def MemoryMapping.translate (regions : List MemoryRegion) (idx : Nat) (ty : AccessType)
    (a l : Nat) : Except EbpfError Nat :=
  match findRegion regions a with
  | none => .error (.InvalidVirtualAddress a)
  | some r =>
    if a + l ≤ r.base + r.len then
      if r.permits ty then .ok (a - r.base)
      else .error (regionFault r idx ty a l)
    else .error (regionFault r idx ty a l)

/-- Modelled from the spec: one fixed-width eBPF instruction (section 3):
opcode, two register fields, a signed 16-bit offset, a signed 32-bit
immediate. -/
structure Instruction where
  opc : Nat
  dst : Nat
  src : Nat
  off : Int
  imm : Int
deriving DecidableEq

/-- Modelled from the spec: the configuration bundle (section 6):
maximum BPF-to-BPF call depth, maximum executed instructions, and the
fixed capacity (in instructions) of the JIT's native-code output buffer. -/
structure Config where
  maxCallDepth : Nat
  maxInstructions : Nat
  jitCapacity : Nat
deriving DecidableEq

/-- Modelled from the spec: the operations the engine dispatches on
(section 4.4 opcode classes): ALU (register move, wrapping add, division),
memory load/store of one 64-bit word, unconditional branch, BPF-to-BPF
call, and exit. -/
inductive Op where
  | mov (dst : Nat) (imm : Int)
  | add (dst src : Nat)
  | div (dst src : Nat)
  | ld (dst src : Nat) (off : Int)
  | st (dst src : Nat) (off : Int)
  | ja (off : Int)
  | call (imm : Int)
  | exit
deriving DecidableEq

/-- Modelled from the spec: decoding an instruction's opcode byte into an
operation, using the standard eBPF operation codes (`MOV64_IMM 0xb7`,
`ADD64_REG 0x0f`, `DIV64_REG 0x3f`, `LDXDW 0x79`, `STXDW 0x7b`, `JA 0x05`,
`CALL 0x85`, `EXIT 0x95`); any other opcode is malformed. -/
def decode (i : Instruction) : Option Op :=
  if i.opc = 0xb7 then some (.mov i.dst i.imm)
  else if i.opc = 0x0f then some (.add i.dst i.src)
  else if i.opc = 0x3f then some (.div i.dst i.src)
  else if i.opc = 0x79 then some (.ld i.dst i.src i.off)
  else if i.opc = 0x7b then some (.st i.dst i.src i.off)
  else if i.opc = 0x05 then some (.ja i.off)
  else if i.opc = 0x85 then some (.call i.imm)
  else if i.opc = 0x95 then some Op.exit
  else none

/-- The modulus of 64-bit machine words. -/
def wordMod : Nat := 2 ^ 64

/-- Reduction of a signed value to a 64-bit machine word, as Rust's
`as u64` cast. -/
def toU64 (i : Int) : Nat :=
  (i % (wordMod : Int)).toNat

/-- Modelled from the spec: a call frame (section 3): the saved
registers and the return instruction index. -/
structure Frame where
  saved : Nat → Nat
  ret : Nat

/-- Modelled from the spec: the mutable per-run state (section 3):
the register file (64-bit general-purpose registers), the program
counter, the stack of pushed call frames (the root frame is implicit and
is never an element), and the byte contents of memory keyed by virtual
address. -/
structure VmState where
  regs : Nat → Nat
  pc : Nat
  frames : List Frame
  mem : Nat → Nat

/-- Register-file update. -/
def updReg (f : Nat → Nat) (i v : Nat) : Nat → Nat :=
  fun j => if j = i then v else f j

/-- On exit from a frame, the callee-saved registers r6-r9 are restored
from the frame, all other registers keep the callee's values. -/
def restoreRegs (saved cur : Nat → Nat) : Nat → Nat :=
  fun j => if 6 ≤ j ∧ j ≤ 9 then saved j else cur j

/-- Little-endian read of one 64-bit word from byte memory. -/
def readWord (mem : Nat → Nat) (a : Nat) : Nat :=
  (List.range 8).foldr (fun i acc => acc * 256 + mem (a + i) % 256) 0

/-- Little-endian write of one 64-bit word to byte memory. -/
def writeWord (mem : Nat → Nat) (a v : Nat) : Nat → Nat :=
  fun x => if a ≤ x ∧ x < a + 8 then v / 256 ^ (x - a) % 256 else mem x

/-- List lookup by position. -/
def nth {α : Type} : List α → Nat → Option α
  | [], _ => none
  | x :: _, 0 => some x
  | _ :: xs, n + 1 => nth xs n

/-- Whether a branch or call target lies inside the text segment. -/
def inText (len : Nat) (t : Int) : Bool :=
  decide (0 ≤ t) && decide (t < (len : Int))

/-- The result of executing one instruction: a successor state, a normal
halt with the 64-bit return value, or a runtime fault. -/
inductive StepRes where
  | next (s : VmState)
  | halt (v : Nat)
  | fault (e : EbpfError)

/-- The outcome of a whole run (spec section 4.4): `Halted` with the
final value of r0, or `Faulted` with one error of the taxonomy. -/
inductive Outcome where
  | halted (v : Nat)
  | fault (e : EbpfError)
deriving DecidableEq

/-- Modelled from the spec: execution of one decoded operation
(section 4.4 dispatch): wrapping 64-bit ALU arithmetic with
`DivideByZero` on a zero divisor; loads/stores delegated to
`MemoryMapping.translate`, its faults propagated verbatim; branches
re-validated defensively (`InvalidInstruction` when out of text); calls
checked against the maximum depth (`CallDepthExceeded(pc, max depth)`)
and against the text segment (`CallOutsideTextSegment`); exit pops one
frame, and a normal exit from the root frame halts with r0. -/
def execOp (cfg : Config) (textLen : Nat) (regions : List MemoryRegion)
    (op : Op) (s : VmState) : StepRes :=
  match op with
  | .mov d i => .next ⟨updReg s.regs d (toU64 i), s.pc + 1, s.frames, s.mem⟩
  | .add d r =>
      .next ⟨updReg s.regs d ((s.regs d + s.regs r) % wordMod), s.pc + 1, s.frames, s.mem⟩
  | .div d r =>
      if s.regs r = 0 then .fault (.DivideByZero s.pc)
      else .next ⟨updReg s.regs d (s.regs d / s.regs r), s.pc + 1, s.frames, s.mem⟩
  | .ld d r o =>
      let a := toU64 ((s.regs r : Int) + o)
      match MemoryMapping.translate regions s.pc .load a 8 with
      | .error e => .fault e
      | .ok _ => .next ⟨updReg s.regs d (readWord s.mem a), s.pc + 1, s.frames, s.mem⟩
  | .st d r o =>
      let a := toU64 ((s.regs d : Int) + o)
      match MemoryMapping.translate regions s.pc .store a 8 with
      | .error e => .fault e
      | .ok _ => .next ⟨s.regs, s.pc + 1, s.frames, writeWord s.mem a (s.regs r)⟩
  | .ja o =>
      let t : Int := (s.pc : Int) + 1 + o
      if inText textLen t then .next ⟨s.regs, t.toNat, s.frames, s.mem⟩
      else .fault (.InvalidInstruction s.pc)
  | .call i =>
      if cfg.maxCallDepth ≤ s.frames.length + 1 then
        .fault (.CallDepthExceeded s.pc cfg.maxCallDepth)
      else
        let t : Int := (s.pc : Int) + 1 + i
        if inText textLen t then
          .next ⟨s.regs, t.toNat, ⟨s.regs, s.pc + 1⟩ :: s.frames, s.mem⟩
        else .fault (.CallOutsideTextSegment s.pc (toU64 t))
  | .exit =>
      match s.frames with
      | [] => .halt (s.regs 0)
      | f :: rest => .next ⟨restoreRegs f.saved s.regs, f.ret, rest, s.mem⟩

/-- Modelled from the spec: one interpreter step (section 4.4): fetch the
instruction at the program counter (`ExecutionOverrun` past the end of
text), decode it (`UnsupportedInstruction` when malformed), dispatch. -/
def interpStep (cfg : Config) (p : List Instruction) (regions : List MemoryRegion)
    (s : VmState) : StepRes :=
  match nth p s.pc with
  | none => .fault (.ExecutionOverrun s.pc)
  | some ins =>
    match decode ins with
    | none => .fault (.UnsupportedInstruction s.pc)
    | some op => execOp cfg p.length regions op s

/-- Modelled from the spec: the interpreter's fetch-decode-execute loop
(section 4.4), fuelled by the remaining instruction budget; an exhausted
budget faults `ExceededMaxInstructions` at the current program counter,
reporting the configured maximum as the instruction count. -/
def interpGo (cfg : Config) (p : List Instruction) (regions : List MemoryRegion) :
    Nat → VmState → Outcome
  | 0, s => .fault (.ExceededMaxInstructions s.pc cfg.maxInstructions)
  | fuel + 1, s =>
    match interpStep cfg p regions s with
    | .next s' => interpGo cfg p regions fuel s'
    | .halt v => .halted v
    | .fault e => .fault e

/-- Modelled from the spec: a full interpreted run, with the instruction
budget initialised from the configuration (section 3). -/
def interpRun (cfg : Config) (p : List Instruction) (regions : List MemoryRegion)
    (s : VmState) : Outcome :=
  interpGo cfg p regions cfg.maxInstructions s

/-- Whether the instruction at position `k`, if any, decodes and has its
branch or call target inside the text segment. -/
def targetOkAt (p : List Instruction) (k : Nat) : Bool :=
  match nth p k with
  | none => true
  | some i =>
    match decode i with
    | none => false
    | some (.ja o) => inText p.length ((k : Int) + 1 + o)
    | some (.call n) => inText p.length ((k : Int) + 1 + n)
    | some _ => true

/-- Modelled from the spec: the verifier's accept/reject decision
(section 4.2): a single forward pass rejecting programs that exceed the
configured maximum instruction count, contain malformed opcodes, or
branch or call outside the text segment. -/
def verify (cfg : Config) (p : List Instruction) : Bool :=
  decide (p.length ≤ cfg.maxInstructions) && decide (0 < p.length) &&
    (List.range p.length).all (targetOkAt p)

/-- Modelled from the spec: the JIT's per-instruction translation pass
(section 4.5), at instruction index `k` with output capacity `cap`:
compilation fails only by exhausting the fixed native-code output buffer
(`ExhaustedTextSegment` at the instruction where it ran out), or by
meeting a malformed opcode on unverified input. -/
def compileGo (cap : Nat) (k : Nat) : List Instruction → Except EbpfError (List Op)
  | [] => .ok []
  | i :: rest =>
    if cap ≤ k then .error (.ExhaustedTextSegment k)
    else
      match decode i with
      | none => .error (.UnsupportedInstruction k)
      | some op =>
        match compileGo cap (k + 1) rest with
        | .error e => .error e
        | .ok ops => .ok (op :: ops)

/-- Modelled from the spec: JIT compilation of a whole program into a
compiled artifact (a sequence of pre-decoded native operations). -/
def compile (cfg : Config) (p : List Instruction) : Except EbpfError (List Op) :=
  compileGo cfg.jitCapacity 0 p

/-- Modelled from the spec: one step of a compiled artifact (section 4.5):
fetch the pre-decoded operation at the program counter and dispatch with
the same semantics as the interpreter. -/
def jitStep (cfg : Config) (ops : List Op) (regions : List MemoryRegion)
    (s : VmState) : StepRes :=
  match nth ops s.pc with
  | none => .fault (.ExecutionOverrun s.pc)
  | some op => execOp cfg ops.length regions op s

/-- Modelled from the spec: the compiled artifact's execution loop,
fuelled by the same instruction budget as the interpreter. -/
def jitGo (cfg : Config) (ops : List Op) (regions : List MemoryRegion) :
    Nat → VmState → Outcome
  | 0, s => .fault (.ExceededMaxInstructions s.pc cfg.maxInstructions)
  | fuel + 1, s =>
    match jitStep cfg ops regions s with
    | .next s' => jitGo cfg ops regions fuel s'
    | .halt v => .halted v
    | .fault e => .fault e

/-- Modelled from the spec: a full run of a JIT-compiled artifact. -/
def jitRun (cfg : Config) (ops : List Op) (regions : List MemoryRegion)
    (s : VmState) : Outcome :=
  jitGo cfg ops regions cfg.maxInstructions s

/-- A sample program: `mov r1, 7; mov r0, 35; div r0, r1; call +1; exit;
add r0, r1; exit`.  The BPF-to-BPF call runs the `add` in a child frame
and returns; the run halts with r0 = 12. -/
def prog1 : List Instruction :=
  [⟨0xb7, 1, 0, 0, 7⟩, ⟨0xb7, 0, 0, 0, 35⟩, ⟨0x3f, 0, 1, 0, 0⟩,
   ⟨0x85, 0, 0, 0, 1⟩, ⟨0x95, 0, 0, 0, 0⟩, ⟨0x0f, 0, 1, 0, 0⟩,
   ⟨0x95, 0, 0, 0, 0⟩]

/-- The compiled artifact of `prog1`. -/
def prog1c : List Op :=
  [.mov 1 7, .mov 0 35, .div 0 1, .call 1, .exit, .add 0 1, .exit]

/-- A configuration for the sample runs. -/
def cfg1 : Config := ⟨4, 100, 32⟩

/-- The initial state: zeroed registers and memory, program counter at
the entry, root frame only. -/
def s1 : VmState := ⟨fun _ => 0, 0, [], fun _ => 0⟩

/-- A one-instruction infinite loop: `ja -1` jumps to itself. -/
def loopProg : List Instruction := [⟨0x05, 0, 0, -1, 0⟩]

/-- A program whose first instruction is a BPF-to-BPF call. -/
def prog5 : List Instruction := [⟨0x85, 0, 0, 0, 0⟩, ⟨0x95, 0, 0, 0, 0⟩]

/-- A configuration whose maximum call depth is 1: the root frame only,
so any call exceeds it. -/
def cfg5 : Config := ⟨1, 10, 8⟩

/-- A configuration with an instruction budget of 1. -/
def cfg6 : Config := ⟨2, 1, 8⟩

/-- A 16-byte heap region at address 0x2000. -/
def heapRegion : MemoryRegion := ⟨0x2000, 16, true, true, .heap⟩

/-- A region set holding only `heapRegion`. -/
def heapRegions : List MemoryRegion := [heapRegion]

/-- A 4096-byte stack region for frame index 2 at address 0x3000. -/
def stackRegion : MemoryRegion := ⟨0x3000, 0x1000, true, true, .stackFrame 2⟩

/-- A region set holding only `stackRegion`. -/
def stackRegions : List MemoryRegion := [stackRegion]

theorem nth_none_iff {α : Type} : ∀ (l : List α) (j : Nat), nth l j = none ↔ l.length ≤ j := by
  intro l
  induction l with
  | nil => intro j; simp [nth]
  | cons x xs ih =>
    intro j
    cases j with
    | zero => simp [nth]
    | succ n => simpa [nth, Nat.succ_le_succ_iff] using ih n

theorem compileGo_length : ∀ (l : List Instruction) (cap k : Nat) (ops : List Op),
    compileGo cap k l = .ok ops → ops.length = l.length := by
  intro l
  induction l with
  | nil =>
    intro cap k ops h
    simp only [compileGo] at h
    cases h
    rfl
  | cons i rest ih =>
    intro cap k ops h
    simp only [compileGo] at h
    by_cases hc : cap ≤ k
    · simp [hc] at h
    · rw [if_neg hc] at h
      cases hd : decode i with
      | none => rw [hd] at h; cases h
      | some op =>
        rw [hd] at h
        cases hr : compileGo cap (k + 1) rest with
        | error e => rw [hr] at h; cases h
        | ok ops' =>
          rw [hr] at h
          cases h
          simpa using ih cap (k + 1) ops' hr

theorem compileGo_nth : ∀ (l : List Instruction) (cap k : Nat) (ops : List Op),
    compileGo cap k l = .ok ops → ∀ j, nth ops j = (nth l j).bind decode := by
  intro l
  induction l with
  | nil =>
    intro cap k ops h j
    simp only [compileGo] at h
    cases h
    simp [nth]
  | cons i rest ih =>
    intro cap k ops h j
    simp only [compileGo] at h
    by_cases hc : cap ≤ k
    · simp [hc] at h
    · rw [if_neg hc] at h
      cases hd : decode i with
      | none => rw [hd] at h; cases h
      | some op =>
        rw [hd] at h
        cases hr : compileGo cap (k + 1) rest with
        | error e => rw [hr] at h; cases h
        | ok ops' =>
          rw [hr] at h
          cases h
          cases j with
          | zero => simp [nth, hd]
          | succ n => simpa [nth] using ih cap (k + 1) ops' hr n

theorem jit_interp_step (cfg : Config) (regions : List MemoryRegion)
    (p : List Instruction) (ops : List Op) (hc : compile cfg p = .ok ops)
    (s : VmState) : jitStep cfg ops regions s = interpStep cfg p regions s := by
  have hlen : ops.length = p.length := compileGo_length p cfg.jitCapacity 0 ops hc
  have hnth : ∀ j, nth ops j = (nth p j).bind decode := compileGo_nth p cfg.jitCapacity 0 ops hc
  unfold jitStep interpStep
  rw [hnth s.pc, hlen]
  cases hp : nth p s.pc with
  | none => rfl
  | some i =>
    cases hd : decode i with
    | some op => simp only [Option.some_bind, hd]
    | none =>
      exfalso
      have hnone : nth ops s.pc = none := by rw [hnth s.pc, hp]; simpa using hd
      have h1 : ops.length ≤ s.pc := (nth_none_iff ops s.pc).mp hnone
      have h2 : ¬ p.length ≤ s.pc := by
        intro hle
        rw [(nth_none_iff p s.pc).mpr hle] at hp
        cases hp
      exact h2 (hlen ▸ h1)

theorem jit_interp_go (cfg : Config) (regions : List MemoryRegion)
    (p : List Instruction) (ops : List Op) (hc : compile cfg p = .ok ops) :
    ∀ (fuel : Nat) (s : VmState),
      jitGo cfg ops regions fuel s = interpGo cfg p regions fuel s := by
  intro fuel
  induction fuel with
  | zero => intro s; rfl
  | succ n ih =>
    intro s
    simp only [jitGo, interpGo]
    rw [jit_interp_step cfg regions p ops hc s]
    cases interpStep cfg p regions s with
    | next s' => exact ih s'
    | halt v => rfl
    | fault e => rfl

theorem translate_no_budget_fault (regions : List MemoryRegion) (idx : Nat)
    (ty : AccessType) (a l i c : Nat) :
    MemoryMapping.translate regions idx ty a l ≠
      .error (.ExceededMaxInstructions i c) := by
  unfold MemoryMapping.translate
  cases findRegion regions a with
  | none => simp
  | some r =>
    dsimp only
    by_cases hfit : a + l ≤ r.base + r.len
    · rw [if_pos hfit]
      by_cases hperm : r.permits ty = true
      · simp [hperm]
      · simp only [hperm, if_false, Bool.false_eq_true, regionFault]
        cases r.slot <;> simp
    · simp only [if_neg hfit, regionFault]
      cases r.slot <;> simp

theorem execOp_no_budget_fault (cfg : Config) (tl : Nat) (regions : List MemoryRegion)
    (op : Op) (s : VmState) (i c : Nat) :
    execOp cfg tl regions op s ≠ .fault (.ExceededMaxInstructions i c) := by
  cases op with
  | mov d im => simp [execOp]
  | add d r => simp [execOp]
  | div d r =>
    simp only [execOp]
    split <;> simp
  | ld d r o =>
    simp only [execOp]
    split
    next e heq =>
      intro hcon
      cases hcon
      exact translate_no_budget_fault regions s.pc .load _ 8 i c heq
    next v heq => simp
  | st d r o =>
    simp only [execOp]
    split
    next e heq =>
      intro hcon
      cases hcon
      exact translate_no_budget_fault regions s.pc .store _ 8 i c heq
    next v heq => simp
  | ja o =>
    simp only [execOp]
    split <;> simp
  | call im =>
    simp only [execOp]
    split
    · simp
    · split <;> simp
  | exit =>
    simp only [execOp]
    split <;> simp

theorem interpStep_no_budget_fault (cfg : Config) (p : List Instruction)
    (regions : List MemoryRegion) (s : VmState) (i c : Nat) :
    interpStep cfg p regions s ≠ .fault (.ExceededMaxInstructions i c) := by
  unfold interpStep
  cases nth p s.pc with
  | none => simp
  | some ins =>
    dsimp only
    cases decode ins with
    | none => simp
    | some op => exact execOp_no_budget_fault cfg p.length regions op s i c

theorem interpGo_budget_count (cfg : Config) (p : List Instruction)
    (regions : List MemoryRegion) : ∀ (fuel : Nat) (s : VmState) (i c : Nat),
    interpGo cfg p regions fuel s = .fault (.ExceededMaxInstructions i c) →
      c = cfg.maxInstructions := by
  intro fuel
  induction fuel with
  | zero =>
    intro s i c h
    simp only [interpGo] at h
    injection h with h2
    injection h2 with ha hb
    exact hb.symm
  | succ n ih =>
    intro s i c h
    simp only [interpGo] at h
    cases hs : interpStep cfg p regions s with
    | next s' => rw [hs] at h; exact ih s' i c h
    | halt v => rw [hs] at h; simp at h
    | fault e =>
      rw [hs] at h
      injection h with h2
      subst h2
      exact absurd hs (interpStep_no_budget_fault cfg p regions s i c)

/-- C1 (counterexample): the claim that every runtime-fault variant
carries the offending instruction index in its payload is false:
`ExitRootCallFrame` is a runtime fault with no payload at all
(`src/error.rs` line 52), so its instruction-index payload is `none`. -/
theorem exit_root_call_frame_carries_no_index :
    EbpfError.ExitRootCallFrame.isRuntimeFault = true ∧
      EbpfError.ExitRootCallFrame.instructionIndex = none := by
  exact ⟨rfl, rfl⟩

/-- C1 (amended): every runtime-fault variant carries the index of the
offending instruction in its payload, except `ExitRootCallFrame` (no
payload), `InvalidVirtualAddress` (carries only the faulting virtual
address) and `InvalidMemoryRegion` (carries only the region index). -/
theorem runtime_faults_carry_instruction_index (e : EbpfError)
    (h : e.isRuntimeFault = true) :
    e.instructionIndex.isSome = true ∨ e = .ExitRootCallFrame ∨
      (∃ a, e = .InvalidVirtualAddress a) ∨ (∃ n, e = .InvalidMemoryRegion n) := by
  cases e <;>
    simp_all [EbpfError.isRuntimeFault, EbpfError.instructionIndex]

/-- C1 (witness): the amended statement instantiated at `DivideByZero 3`,
a runtime fault whose payload does carry the instruction index. -/
theorem runtime_faults_carry_instruction_index_witness :
    (EbpfError.DivideByZero 3).isRuntimeFault = true ∧
      ((EbpfError.DivideByZero 3).instructionIndex.isSome = true ∨
        EbpfError.DivideByZero 3 = .ExitRootCallFrame ∨
        (∃ a, EbpfError.DivideByZero 3 = .InvalidVirtualAddress a) ∨
        (∃ n, EbpfError.DivideByZero 3 = .InvalidMemoryRegion n)) :=
  ⟨by decide, runtime_faults_carry_instruction_index (EbpfError.DivideByZero 3) (by decide)⟩

/-- C2: for every program accepted by the verifier and successfully
JIT-compiled, running the compiled artifact and running the interpreter
from the same initial state (registers, call frames and input memory
contents) over the same region set yields identical outcomes: the same
halted 64-bit value, or the same error with the same payload (hence the
same kind and instruction index). -/
theorem jit_matches_interpreter (cfg : Config) (p : List Instruction)
    (ops : List Op) (regions : List MemoryRegion) (s : VmState)
    (_hv : verify cfg p = true) (hc : compile cfg p = Except.ok ops) :
    jitRun cfg ops regions s = interpRun cfg p regions s := by
  unfold jitRun interpRun
  exact jit_interp_go cfg regions p ops hc cfg.maxInstructions s

/-- C2 (witness): the equivalence instantiated at `prog1`, which the
verifier accepts and which compiles to `prog1c`; both backends halt
with r0 = 12. -/
theorem jit_matches_interpreter_witness :
    verify cfg1 prog1 = true ∧ compile cfg1 prog1 = Except.ok prog1c ∧
      jitRun cfg1 prog1c [] s1 = interpRun cfg1 prog1 [] s1 ∧
      interpRun cfg1 prog1 [] s1 = Outcome.halted 12 :=
  ⟨by rfl, by rfl,
    jit_matches_interpreter cfg1 prog1 prog1c [] s1 (by rfl) (by rfl),
    by decide⟩

/-- C3: when translation finds the containing region but the requested
range does not fit fully inside it, and the region is not a stack frame,
the resulting error is exactly `AccessViolation` carrying the offending
instruction index, the access type, the faulting virtual address, the
access length, and the region identity. -/
theorem access_violation_carries_full_context (regions : List MemoryRegion)
    (idx : Nat) (ty : AccessType) (a l : Nat) (r : MemoryRegion)
    (hfind : findRegion regions a = some r)
    (hstack : r.slot.isStack = false)
    (hfit : ¬ a + l ≤ r.base + r.len) :
    MemoryMapping.translate regions idx ty a l =
      .error (.AccessViolation idx ty a l r.slot.name) := by
  unfold MemoryMapping.translate
  rw [hfind]
  dsimp only
  rw [if_neg hfit]
  unfold regionFault
  cases hs : r.slot <;> simp_all [RegionSlot.isStack, RegionSlot.name]

/-- C3 (witness): a 16-byte load at 0x2008 overruns the 16-byte heap
region based at 0x2000 by 8 bytes; the fault carries instruction index 7,
the address, the length and the region identity `heap`. -/
theorem access_violation_carries_full_context_witness :
    findRegion heapRegions 0x2008 = some heapRegion ∧
      heapRegion.slot.isStack = false ∧
      ¬ (0x2008 + 16 ≤ heapRegion.base + heapRegion.len) ∧
      MemoryMapping.translate heapRegions 7 .load 0x2008 16 =
        .error (.AccessViolation 7 .load 0x2008 16 "heap") :=
  ⟨by rfl, by rfl, by decide,
    access_violation_carries_full_context heapRegions 7 .load 0x2008 16 heapRegion
      (by rfl) (by rfl) (by decide)⟩

/-- C4: every faulting access whose containing region is a stack frame is
reported with the distinguished `StackAccessViolation` error whose payload
carries the signed frame index of that frame (not the generic region-name
tag of `AccessViolation`), together with the instruction index, access
type, address and length. -/
theorem stack_faults_carry_frame_index (regions : List MemoryRegion)
    (idx : Nat) (ty : AccessType) (a l : Nat) (r : MemoryRegion) (fr : Int)
    (e : EbpfError)
    (hfind : findRegion regions a = some r)
    (hslot : r.slot = .stackFrame fr)
    (herr : MemoryMapping.translate regions idx ty a l = .error e) :
    e = .StackAccessViolation idx ty a l fr := by
  unfold MemoryMapping.translate at herr
  rw [hfind] at herr
  dsimp only at herr
  by_cases hfit : a + l ≤ r.base + r.len
  · rw [if_pos hfit] at herr
    by_cases hperm : r.permits ty = true
    · rw [if_pos hperm] at herr
      cases herr
    · rw [if_neg hperm] at herr
      injection herr with h2
      rw [← h2]
      unfold regionFault
      rw [hslot]
  · rw [if_neg hfit] at herr
    injection herr with h2
    rw [← h2]
    unfold regionFault
    rw [hslot]

/-- C4 (witness): the spec scenario — an 8-byte store whose range ends
1 byte past the boundary of the frame-2 stack region faults
`StackAccessViolation` naming frame index 2. -/
theorem stack_faults_carry_frame_index_witness :
    findRegion stackRegions 0x3FF9 = some stackRegion ∧
      stackRegion.slot = .stackFrame 2 ∧
      MemoryMapping.translate stackRegions 9 .store 0x3FF9 8 =
        .error (.StackAccessViolation 9 .store 0x3FF9 8 2) ∧
      (EbpfError.StackAccessViolation 9 .store 0x3FF9 8 2 =
        .StackAccessViolation 9 .store 0x3FF9 8 2) :=
  ⟨by rfl, by rfl, by rfl,
    stack_faults_carry_frame_index stackRegions 9 .store 0x3FF9 8 stackRegion 2
      (.StackAccessViolation 9 .store 0x3FF9 8 2) (by rfl) (by rfl) (by rfl)⟩

/-- C5: a BPF-to-BPF call instruction executed when pushing another frame
would exceed the configured maximum call depth faults with
`CallDepthExceeded` carrying the current instruction index and the
configured maximum depth, and the whole run aborts with that fault. -/
theorem call_depth_exceeded_aborts_run (cfg : Config) (p : List Instruction)
    (regions : List MemoryRegion) (s : VmState) (ins : Instruction) (n : Int)
    (hget : nth p s.pc = some ins)
    (hdec : decode ins = some (Op.call n))
    (hdepth : cfg.maxCallDepth ≤ s.frames.length + 1) :
    interpStep cfg p regions s =
        .fault (.CallDepthExceeded s.pc cfg.maxCallDepth) ∧
      ∀ fuel, interpGo cfg p regions (fuel + 1) s =
        .fault (.CallDepthExceeded s.pc cfg.maxCallDepth) := by
  have hstep : interpStep cfg p regions s =
      .fault (.CallDepthExceeded s.pc cfg.maxCallDepth) := by
    unfold interpStep
    rw [hget]
    dsimp only
    rw [hdec]
    unfold execOp
    dsimp only
    rw [if_pos hdepth]
  exact ⟨hstep, fun fuel => by simp only [interpGo, hstep]⟩

/-- C5 (witness): under a configuration with maximum call depth 1 (the
root frame only), the call at instruction 0 of `prog5` faults
`CallDepthExceeded(0, 1)` and the run aborts with it. -/
theorem call_depth_exceeded_aborts_run_witness :
    nth prog5 0 = some ⟨0x85, 0, 0, 0, 0⟩ ∧
      decode ⟨0x85, 0, 0, 0, 0⟩ = some (Op.call 0) ∧
      cfg5.maxCallDepth ≤ 1 ∧
      interpStep cfg5 prog5 [] s1 = .fault (.CallDepthExceeded 0 1) ∧
      interpGo cfg5 prog5 [] 4 s1 = .fault (.CallDepthExceeded 0 1) :=
  ⟨by rfl, by rfl, by decide,
    (call_depth_exceeded_aborts_run cfg5 prog5 [] s1 ⟨0x85, 0, 0, 0, 0⟩ 0
      (by rfl) (by rfl) (by decide)).1,
    (call_depth_exceeded_aborts_run cfg5 prog5 [] s1 ⟨0x85, 0, 0, 0, 0⟩ 0
      (by rfl) (by rfl) (by decide)).2 3⟩

/-- C6: whenever a run faults `ExceededMaxInstructions`, the reported
instruction count equals the configured maximum number of instructions
(first conjunct, over every program, state and remaining budget); and a
run of the one-instruction infinite loop exhausts any configured budget
and faults `ExceededMaxInstructions` at the instruction where the budget
ran out, reporting the configured maximum (second conjunct). -/
theorem budget_exhaustion_reports_configured_max (cfg : Config)
    (regions : List MemoryRegion) :
    (∀ (p : List Instruction) (fuel : Nat) (s : VmState) (i c : Nat),
        interpGo cfg p regions fuel s = .fault (.ExceededMaxInstructions i c) →
          c = cfg.maxInstructions) ∧
      interpRun cfg loopProg regions s1 =
        .fault (.ExceededMaxInstructions 0 cfg.maxInstructions) := by
  constructor
  · exact fun p fuel s i c h => interpGo_budget_count cfg p regions fuel s i c h
  · have hloop : ∀ fuel, interpGo cfg loopProg regions fuel s1 =
        .fault (.ExceededMaxInstructions 0 cfg.maxInstructions) := by
      intro fuel
      induction fuel with
      | zero => rfl
      | succ n ih =>
        have hstep : interpStep cfg loopProg regions s1 = .next s1 := rfl
        simp only [interpGo, hstep]
        exact ih
    exact hloop cfg.maxInstructions

/-- C6 (witness): with an instruction budget of 1, the loop program
faults `ExceededMaxInstructions(0, 1)`; the first conjunct applied to
that concrete run confirms the reported count equals the configured
maximum. -/
theorem budget_exhaustion_reports_configured_max_witness :
    interpGo cfg6 loopProg [] 1 s1 = .fault (.ExceededMaxInstructions 0 1) ∧
      1 = cfg6.maxInstructions ∧
      interpRun cfg6 loopProg [] s1 =
        .fault (.ExceededMaxInstructions 0 cfg6.maxInstructions) :=
  ⟨by decide,
    (budget_exhaustion_reports_configured_max cfg6 []).1 loopProg 1 s1 0 1 (by decide),
    (budget_exhaustion_reports_configured_max cfg6 []).2⟩

/-- C7: the error taxonomy is one closed tagged sum type: every error
value's kind is one of the 23 enumerated kinds (registry errors, runtime
faults, JIT errors, host-originated errors, and the wrapped setup and
verification errors), the kind list has no duplicates, and every
enumerated kind is realised by a distinct variant of `EbpfError`; in the
embedding every fallible operation reports its errors through this type. -/
theorem error_taxonomy_is_closed :
    (∀ e : EbpfError, e.kind ∈ allErrorKinds) ∧
      allErrorKinds.Nodup ∧ allErrorKinds.length = 23 ∧
      (∀ k : ErrKind, ∃ e : EbpfError, e.kind = k) := by
  refine ⟨?_, by decide, by decide, ?_⟩
  · intro e
    cases e <;> simp [EbpfError.kind, allErrorKinds]
  · intro k
    cases k
    exacts [⟨.UserError ⟨"", false⟩, rfl⟩, ⟨.ElfError ⟨""⟩, rfl⟩,
      ⟨.SyscallAlreadyRegistered 0, rfl⟩, ⟨.SyscallNotRegistered 0, rfl⟩,
      ⟨.SyscallAlreadyBound 0, rfl⟩, ⟨.TooManySyscalls, rfl⟩,
      ⟨.CallDepthExceeded 0 0, rfl⟩, ⟨.ExitRootCallFrame, rfl⟩,
      ⟨.DivideByZero 0, rfl⟩, ⟨.DivideOverflow 0, rfl⟩,
      ⟨.ExecutionOverrun 0, rfl⟩, ⟨.CallOutsideTextSegment 0 0, rfl⟩,
      ⟨.ExceededMaxInstructions 0 0, rfl⟩, ⟨.JitNotCompiled, rfl⟩,
      ⟨.InvalidVirtualAddress 0, rfl⟩, ⟨.InvalidMemoryRegion 0, rfl⟩,
      ⟨.AccessViolation 0 .load 0 0 "", rfl⟩,
      ⟨.StackAccessViolation 0 .load 0 0 0, rfl⟩,
      ⟨.InvalidInstruction 0, rfl⟩, ⟨.UnsupportedInstruction 0, rfl⟩,
      ⟨.ExhaustedTextSegment 0, rfl⟩, ⟨.LibcInvocationFailed "" [] 0, rfl⟩,
      ⟨.VerifierError ⟨""⟩, rfl⟩]

/-- C8: host-originated errors pass through verbatim: a `UserError`
stores the host's opaque error value unchanged and renders as exactly
the inner error's own message, and a `LibcInvocationFailed` stores the
called function's name, the arguments rendered as text, and the numeric
status code, rendering all three. -/
theorem host_errors_pass_through_verbatim (u : StdError) (f : String)
    (args : List String) (c : Int) :
    (EbpfError.UserError u).userPayload = some u ∧
      (EbpfError.UserError u).message = u.message ∧
      (EbpfError.LibcInvocationFailed f args c).libcPayload = some (f, args, c) ∧
      (EbpfError.LibcInvocationFailed f args c).message =
        "Libc calling " ++ f ++ " " ++ debugStrList args ++
          " returned error code " ++ toString c :=
  ⟨rfl, rfl, rfl, rfl⟩

/-- C9: the `From` conversions generated by `#[from]` wrap the inner
error unchanged in exactly the `ElfError` and `VerifierError` variants,
whose renderings are `"ELF error: "` and `"Verifier error: "` followed by
the inner error's own rendering. -/
theorem from_conversions_wrap_unchanged (e : ElfError) (v : VerifierError) :
    fromElfError e = EbpfError.ElfError e ∧
      (EbpfError.ElfError e).message = "ELF error: " ++ e.message ∧
      fromVerifierError v = EbpfError.VerifierError v ∧
      (EbpfError.VerifierError v).message = "Verifier error: " ++ v.message :=
  ⟨rfl, rfl, rfl, rfl⟩

/-- C10: the `UserError` variant accepts any host error value — including
one whose type does not implement the crate's `UserDefinedError` marker
trait (`userDefined = false`) — storing it unchanged, and its rendering
is exactly the inner error's own message with no added prefix or
annotation. -/
theorem user_error_accepts_any_std_error (u : StdError) (m : String) :
    (EbpfError.UserError u).userPayload = some u ∧
      (EbpfError.UserError u).message = u.message ∧
      (EbpfError.UserError ⟨m, false⟩).message = m :=
  ⟨rfl, rfl, rfl⟩
